import Mathlib

/-!
Verification of the batch video-to-MP3 pipeline in `src/app.py`.

The development shallowly embeds the pipeline logic of `process_videos`,
`progress_hook` and `YOUTUBE_URL_PATTERN` into Lean:

* Python strings are `String` / `List Char`; the embedding models the ASCII
  fragment of Python semantics (the regex classes `\w` and `\s` are read as
  their ASCII subsets, as under `re.ASCII`).
* The external collaborators (`yt_dlp`, the filesystem, Streamlit widgets)
  are modelled by explicit environments: `ItemEnv` describes what the
  downloader does for one URL, `BatchEnv` adds directory creation/removal
  behaviour, and the workspace directory contents are threaded through the
  per-item processing as a list of file paths.  Streamlit display calls
  become pure `Event` values.
* Python exceptions become `Except` values; a `try/except` block becomes a
  `match` on the embedded result.
* Python floats are modelled by exact rationals (plus `inf`/`nan` markers);
  no theorem below depends on rounding behaviour of IEEE arithmetic.
-/

/-! ### Python string helpers -/

/-- ASCII whitespace, as recognised by Python `str.strip()` / `float()` and by
the regex class `\s` (ASCII fragment): space, tab, newline, carriage return,
vertical tab, form feed. -/
def pyWs (c : Char) : Bool :=
  c == ' ' || c == '\t' || c == '\n' || c == '\r' || c == '\x0b' || c == '\x0c'

/-- `l.strip()` on a list of characters: drop ASCII whitespace at both ends. -/
def pyStripL (l : List Char) : List Char :=
  ((l.dropWhile pyWs).reverse.dropWhile pyWs).reverse

/-- `s.strip()`. -/
def pyStrip (s : String) : String :=
  String.mk (pyStripL s.toList)

/-- `s[:n]` on strings: the first `n` characters. -/
def pyTake (n : Nat) (s : String) : String :=
  String.mk (s.toList.take n)

/-- Does `p` start with the pattern `pat`?  (Recursion is on the pattern
first, so that concrete patterns reduce definitionally against symbolic
remainders.) -/
def startsWith (pat l : List Char) : Bool :=
  match pat with
  | [] => true
  | p :: ps =>
    match l with
    | [] => false
    | c :: cs => p == c && startsWith ps cs

/-- Does `l` end with the pattern `pat`? -/
def endsWithL (pat l : List Char) : Bool :=
  startsWith pat.reverse l.reverse

/-- Python `pat in s` (substring containment). -/
def containsSub (pat s : String) : Bool :=
  s.toList.tails.any (fun t => startsWith pat.toList t)

/-- Python `str.lower()` on one character, ASCII fragment: `A`–`Z` map to
`a`–`z`, everything else is unchanged. -/
def lowerChar (c : Char) : Char :=
  if 65 ≤ c.toNat ∧ c.toNat ≤ 90 then Char.ofNat (c.toNat + 32) else c

/-- Python `s.lower()` (ASCII fragment). -/
def pyLower (s : String) : String :=
  String.mk (s.toList.map lowerChar)

/-- Python `s.endswith(suffix)`. -/
def pyEndsWith (s suffix : String) : Bool :=
  endsWithL suffix.toList s.toList

/-- Worker for `pySplitlines`: `splitlinesGo l cur` scans `l`, accumulating
the current line in reverse in `cur`; `\n`, `\r` and `\r\n` are the line
boundaries, and a final segment is emitted only if nonempty (Python
`str.splitlines()`, ASCII fragment). -/
def splitlinesGo : List Char → List Char → List (List Char)
  | [], cur => if cur.isEmpty then [] else [cur.reverse]
  | '\r' :: '\n' :: rest, cur => cur.reverse :: splitlinesGo rest []
  | '\r' :: rest, cur => cur.reverse :: splitlinesGo rest []
  | '\n' :: rest, cur => cur.reverse :: splitlinesGo rest []
  | c :: rest, cur => splitlinesGo rest (c :: cur)

/-- Python `s.splitlines()` (ASCII fragment). -/
def pySplitlines (s : String) : List String :=
  (splitlinesGo s.toList []).map String.mk

/-- Worker for `pySplit`: split at each non-overlapping occurrence of the
nonempty separator `s0 :: ss`, scanning left to right.  The first argument
is fuel (structural recursion, so that the kernel can evaluate it); any fuel
exceeding the scanned list's length gives the splitting behaviour. -/
def splitOnGo (s0 : Char) (ss : List Char) : Nat → List Char → List Char → List (List Char)
  | 0, _, cur => [cur.reverse]
  | fuel + 1, l, cur =>
    match l with
    | [] => [cur.reverse]
    | c :: rest =>
      if startsWith (s0 :: ss) (c :: rest) then
        cur.reverse :: splitOnGo s0 ss fuel (rest.drop ss.length) []
      else
        splitOnGo s0 ss fuel rest (c :: cur)

/-- Python `s.split(sep)` for a separator string (keeps empty segments, as
Python does). -/
def pySplit (sep s : String) : List String :=
  match sep.toList with
  | [] => [s]
  | s0 :: ss => (splitOnGo s0 ss (s.toList.length + 1) s.toList []).map String.mk

/-- Python `os.path.basename` on POSIX: the part after the last `/`. -/
def pyBasename (p : String) : String :=
  (pySplit "/" p).getLastD p

/-- Python `f-string` rendering of an optional string (`None` when absent). -/
def strOfOpt : Option String → String
  | none => "None"
  | some s => s

/-- Python `f-string` rendering of a boolean. -/
def strOfBool : Bool → String
  | true => "True"
  | false => "False"

/-! ### The URL validator

`YOUTUBE_URL_PATTERN` (src/app.py lines 13–15) is the anchored regex

  `^(https?://)?(www\.)?(youtube\.com/watch\?v=|youtu\.be/)`
  `([a-zA-Z0-9_-]{11})([\[\]\(\)\w\s=&%#@!?\+\-_.:;\x27"]*)?$`

The matcher below translates it group by group.  The alternations inside the
optional scheme, the optional `www.` and the host group are mutually
exclusive on their first differing character, so the greedy stripping below
decides the regex exactly; since `\n` is itself in the trailing class, the
Python `$` (end, or just before a final newline) is equivalent to
end-of-string here. -/

/-- The identifier class `[a-zA-Z0-9_-]` of the regex. -/
def idChar (c : Char) : Bool :=
  ('a' ≤ c && c ≤ 'z') || ('A' ≤ c && c ≤ 'Z') || ('0' ≤ c && c ≤ '9') ||
    c == '_' || c == '-'

/-- The trailing class `[\[\]\(\)\w\s=&%#@!?\+\-_.:;\x27"]` of the regex
(`\w`, `\s` in their ASCII reading; codes 39 and 34 are the two quote
characters). -/
def tailChar (c : Char) : Bool :=
  c == '[' || c == ']' || c == '(' || c == ')' ||
    (('a' ≤ c && c ≤ 'z') || ('A' ≤ c && c ≤ 'Z') || ('0' ≤ c && c ≤ '9') || c == '_') ||
    pyWs c ||
    c == '=' || c == '&' || c == '%' || c == '#' || c == '@' || c == '!' ||
    c == '?' || c == '+' || c == '-' || c == '.' || c == ':' || c == ';' ||
    c.toNat == 39 || c.toNat == 34

/-- Groups 4–5 of the regex: exactly 11 identifier characters, then any
number of trailing-class characters, up to the end anchor. -/
def afterHost (r : List Char) : Bool :=
  decide (11 ≤ r.length) && (r.take 11).all idChar && (r.drop 11).all tailChar

/-- Group 3 of the regex: `youtube.com/watch?v=` or `youtu.be/`. -/
def hostStep (l : List Char) : Bool :=
  if startsWith "youtube.com/watch?v=".toList l then afterHost (l.drop 20)
  else if startsWith "youtu.be/".toList l then afterHost (l.drop 9)
  else false

/-- Group 2 of the regex: optional `www.`. -/
def wwwStep (l : List Char) : Bool :=
  if startsWith "www.".toList l then hostStep (l.drop 4) else hostStep l

/-- Group 1 of the regex: optional scheme `https?://`; then the rest. -/
def matchL (l : List Char) : Bool :=
  if startsWith "https://".toList l then wwwStep (l.drop 8)
  else if startsWith "http://".toList l then wwwStep (l.drop 7)
  else wwwStep l

/-- `YOUTUBE_URL_PATTERN.match(s)` succeeding (the pattern is anchored at
both ends, so a match is a full match). -/
def YOUTUBE_URL_PATTERN_match (s : String) : Bool :=
  matchL s.toList

/-- The single-video URL shape described by the specification, stated
declaratively: an optional scheme, an optional `www.` subdomain, one of the
two host forms, an 11-character video identifier, and trailing extra
characters from the regex's trailing class. -/
def WellFormedRef (l : List Char) : Prop :=
  ∃ sch www host vid tl : List Char,
    (sch = [] ∨ sch = "http://".toList ∨ sch = "https://".toList) ∧
    (www = [] ∨ www = "www.".toList) ∧
    (host = "youtube.com/watch?v=".toList ∨ host = "youtu.be/".toList) ∧
    vid.length = 11 ∧ vid.all idChar = true ∧ tl.all tailChar = true ∧
    l = sch ++ (www ++ (host ++ (vid ++ tl)))

/-! ### Validator characterization -/

theorem startsWith_append (p r : List Char) : startsWith p (p ++ r) = true := by
  induction p with
  | nil => rfl
  | cons a as ih => simp [startsWith, ih]

theorem startsWith_iff (p l : List Char) :
    startsWith p l = true ↔ ∃ r, l = p ++ r := by
  induction p generalizing l with
  | nil => simp [startsWith]
  | cons a as ih =>
    cases l with
    | nil =>
      simp only [startsWith]
      constructor
      · intro h; cases h
      · rintro ⟨r, h⟩; cases h
    | cons c cs =>
      simp only [startsWith, Bool.and_eq_true, beq_iff_eq, ih]
      constructor
      · rintro ⟨rfl, r, rfl⟩; exact ⟨r, rfl⟩
      · rintro ⟨r, h⟩
        injection h with h1 h2
        exact ⟨h1.symm, r, h2⟩

theorem afterHost_iff (r : List Char) :
    afterHost r = true ↔
      ∃ vid tl : List Char, vid.length = 11 ∧ vid.all idChar = true ∧
        tl.all tailChar = true ∧ r = vid ++ tl := by
  unfold afterHost
  simp only [Bool.and_eq_true, decide_eq_true_eq]
  constructor
  · rintro ⟨⟨hlen, hid⟩, htl⟩
    refine ⟨r.take 11, r.drop 11, ?_, hid, htl, (List.take_append_drop 11 r).symm⟩
    simp only [List.length_take]
    omega
  · rintro ⟨vid, tl, h11, hid, htl, rfl⟩
    rw [List.take_left' h11, List.drop_left' h11]
    refine ⟨⟨?_, hid⟩, htl⟩
    simp only [List.length_append]
    omega

theorem hostStep_decomp (l : List Char) (h : hostStep l = true) :
    ∃ host r : List Char,
      (host = "youtube.com/watch?v=".toList ∨ host = "youtu.be/".toList) ∧
      afterHost r = true ∧ l = host ++ r := by
  unfold hostStep at h
  split at h
  case isTrue hc =>
    obtain ⟨r, rfl⟩ := (startsWith_iff _ _).mp hc
    rw [List.drop_left' (by decide)] at h
    exact ⟨_, r, Or.inl rfl, h, rfl⟩
  case isFalse =>
    split at h
    case isTrue hc =>
      obtain ⟨r, rfl⟩ := (startsWith_iff _ _).mp hc
      rw [List.drop_left' (by decide)] at h
      exact ⟨_, r, Or.inr rfl, h, rfl⟩
    case isFalse => cases h

theorem wwwStep_decomp (l : List Char) (h : wwwStep l = true) :
    ∃ www r : List Char, (www = [] ∨ www = "www.".toList) ∧
      hostStep r = true ∧ l = www ++ r := by
  unfold wwwStep at h
  split at h
  case isTrue hc =>
    obtain ⟨r, rfl⟩ := (startsWith_iff _ _).mp hc
    rw [List.drop_left' (by decide)] at h
    exact ⟨_, r, Or.inr rfl, h, rfl⟩
  case isFalse => exact ⟨[], l, Or.inl rfl, h, rfl⟩

theorem matchL_decomp_fwd (l : List Char) (h : matchL l = true) :
    ∃ sch r : List Char,
      (sch = [] ∨ sch = "http://".toList ∨ sch = "https://".toList) ∧
      wwwStep r = true ∧ l = sch ++ r := by
  unfold matchL at h
  split at h
  case isTrue hc =>
    obtain ⟨r, rfl⟩ := (startsWith_iff _ _).mp hc
    rw [List.drop_left' (by decide)] at h
    exact ⟨_, r, Or.inr (Or.inr rfl), h, rfl⟩
  case isFalse =>
    split at h
    case isTrue hc =>
      obtain ⟨r, rfl⟩ := (startsWith_iff _ _).mp hc
      rw [List.drop_left' (by decide)] at h
      exact ⟨_, r, Or.inr (Or.inl rfl), h, rfl⟩
    case isFalse => exact ⟨[], l, Or.inl rfl, h, rfl⟩

theorem matchL_decomp (sch www host : List Char)
    (hs : sch = [] ∨ sch = "http://".toList ∨ sch = "https://".toList)
    (hw : www = [] ∨ www = "www.".toList)
    (hh : host = "youtube.com/watch?v=".toList ∨ host = "youtu.be/".toList)
    (r : List Char) :
    matchL (sch ++ (www ++ (host ++ r))) = afterHost r := by
  rcases hs with rfl | rfl | rfl <;> rcases hw with rfl | rfl <;>
    rcases hh with rfl | rfl <;> exact rfl

theorem matchL_iff_wellFormed (l : List Char) :
    matchL l = true ↔ WellFormedRef l := by
  constructor
  · intro h
    obtain ⟨sch, r1, hs, h1, rfl⟩ := matchL_decomp_fwd l h
    obtain ⟨www, r2, hw, h2, rfl⟩ := wwwStep_decomp r1 h1
    obtain ⟨host, r3, hh, h3, rfl⟩ := hostStep_decomp r2 h2
    obtain ⟨vid, tl, h11, hid, htl, rfl⟩ := (afterHost_iff r3).mp h3
    exact ⟨sch, www, host, vid, tl, hs, hw, hh, h11, hid, htl, rfl⟩
  · rintro ⟨sch, www, host, vid, tl, hs, hw, hh, h11, hid, htl, rfl⟩
    rw [matchL_decomp sch www host hs hw hh (vid ++ tl)]
    exact (afterHost_iff _).mpr ⟨vid, tl, h11, hid, htl, rfl⟩

/-! ### Data model of the per-item pipeline

`process_videos` (src/app.py lines 51–191) drives each validated URL through
a metadata probe, a download+transcode call and an artifact-resolution step.
The downloader's behaviour for one URL is an `ItemEnv`; the workspace
directory contents are a duplicate-free list of file paths. -/

/-- The result-object shape returned by `ydl.extract_info` (only the fields
the pipeline reads: `.get(\x27title\x27)` and `.get(\x27filepath\x27)`). -/
structure Info where
  title : Option String
  filepath : Option String
deriving DecidableEq

/-- A Python exception, as classified by the per-item handlers:
`yt_dlp.utils.DownloadError` versus any other exception class. -/
inductive PyExc where
  | download (msg : String)
  | other (msg : String)
deriving DecidableEq

/-- `str(e)` for an embedded exception. -/
def PyExc.msg : PyExc → String
  | .download m => m
  | .other m => m

/-- The downloader/filesystem behaviour for one URL: the outcome of the
metadata-only probe (`extract_info(url, download=False)`), the outcome of the
downloading call (`extract_info(url, download=True)`), the files the
successful downloading call leaves in the workspace, and the result of
reading a file's bytes (`open(p, "rb").read()`, which may raise). -/
structure ItemEnv where
  probe : Except PyExc Info
  dl : Except PyExc Info
  dlFiles : List String
  readBytes : String → Except String (List Nat)

/-- A Streamlit display call, embedded as a pure event: `st.info`,
`st.warning`, `st.error`, `st.success` and `progress_bar.progress`. -/
inductive Event where
  | info (msg : String)
  | warn (msg : String)
  | err (msg : String)
  | ok (msg : String)
  | progress (n : Int)
deriving DecidableEq

/-- The diagnostic triple of the artifact-resolution step: the reported
path, whether it exists on disk, and whether its extension is `.mp3`; the
latter two are `none` (printed `N/A`) when the reported path is falsy. -/
structure ArtifactDiag where
  reported : Option String
  onDisk : Option Bool
  isMp3 : Option Bool
deriving DecidableEq

/-- The terminal record for one URL: a delivered MP3 (title, filename, bytes,
source URL) or a classified failure with its display reason. -/
inductive FailKind where
  | artifact (diag : ArtifactDiag)
  | downloadErr
  | unexpected
deriving DecidableEq

/-- One `ItemOutcome` per processed URL. -/
inductive ItemOutcome where
  | success (title filename : String) (data : List Nat) (url : String)
  | failure (url : String) (kind : FailKind) (reason : String)
deriving DecidableEq

/-- One entry of `st.session_state.download_links`. -/
structure DownloadLink where
  title : String
  filename : String
  data : List Nat
  url : String
deriving DecidableEq

/-- Result of processing one URL: its outcome, the workspace contents
afterwards, and the display events emitted along the way. -/
structure ItemResult where
  outcome : ItemOutcome
  disk : List String
  events : List Event
deriving DecidableEq

/-! ### Message builders (the f-strings of src/app.py; `\x27` is `'`) -/

/-- Line 126: warning after a failed metadata probe (`str(e)[:100]`). -/
def probeWarnMsg (url msg : String) : String :=
  "Could not pre-fetch video info for " ++ url ++ ": " ++ pyTake 100 msg ++
    ". Proceeding with download attempt."

/-- Line 163: the `yt_dlp.utils.DownloadError` handler (`str(e)[:300]`). -/
def dlErrMsg (title msg : String) : String :=
  "Download/Conversion error for \x27" ++ title ++ "\x27: " ++ pyTake 300 msg

/-- Line 167: the generic exception handler (`str(e)[:300]`). -/
def unexpectedErrMsg (title msg : String) : String :=
  "An unexpected error occurred with \x27" ++ title ++ "\x27: " ++ pyTake 300 msg

/-- Line 157: rendering of the diagnostic triple. -/
def diagDetail (d : ArtifactDiag) : String :=
  "(Reported path: " ++ strOfOpt d.reported ++ ", Exists: " ++
    (match d.onDisk with | some b => strOfBool b | none => "N/A") ++
    ", Ends with .mp3: " ++
    (match d.isMp3 with | some b => strOfBool b | none => "N/A") ++ ")"

/-- Line 158: the artifact-resolution failure message. -/
def convFailMsg (title detail : String) : String :=
  "Conversion failed or MP3 file not found for \x27" ++ title ++ "\x27. " ++ detail

/-- Line 142: the success banner. -/
def convOkMsg (title fname : String) : String :=
  "Successfully converted: \x27" ++ title ++ "\x27 (as " ++ fname ++ ")"

/-! ### The per-item processor -/

/-- Line 120: the placeholder title derived from the URL,
`f"Video from {url.split(\x27v=\x27)[-1][:11] if \x27v=\x27 in url else
\x27youtu.be/\x27 + url.split(\x27/\x27)[-1][:11]}"`. -/
def fallbackTitle (url : String) : String :=
  "Video from " ++
    (if containsSub "v=" url then pyTake 11 ((pySplit "v=" url).getLastD url)
     else "youtu.be/" ++ pyTake 11 ((pySplit "/" url).getLastD url))

/-- Lines 120–129: the title after the probe step — the probe's title if the
probe succeeded and reported one, the placeholder otherwise. -/
def probedTitle (url : String) (env : ItemEnv) : String :=
  match env.probe with
  | .ok i => match i.title with | some t => t | none => fallbackTitle url
  | .error _ => fallbackTitle url

/-- Line 136: `processed_info.get(\x27title\x27, hook_data[\x27video_title\x27])`. -/
def dlTitle (url : String) (env : ItemEnv) (pinfo : Info) : String :=
  match pinfo.title with | some t => t | none => probedTitle url env

/-- Lines 162/166: `err_title`, the URL when the title is still the initial
`"Unknown Video"` placeholder. -/
def errTitle (url t : String) : String :=
  if t == "Unknown Video" then url else t

/-- Line 139: the extension condition `final_mp3_path.lower().endswith(".mp3")`. -/
def mp3Ext (p : String) : Bool :=
  pyEndsWith (pyLower p) ".mp3"

/-- Files added to the workspace by a successful downloading call (a set
union keeping first-occurrence order, so the workspace stays duplicate-free). -/
def addFiles (disk files : List String) : List String :=
  files.foldl (fun d f => if f ∈ d then d else d ++ [f]) disk

/-- Display events of lines 90–132, up to the downloading call: preparation
notices, the probe (with its warning on failure) and the processing banner. -/
def itemEvPre (url : String) (env : ItemEnv) : List Event :=
  [.info ("Preparing to process URL: " ++ url),
   .info ("Fetching video information for " ++ url ++ "..."),
   .progress 5] ++
  (match env.probe with
   | .ok _ => []
   | .error e => [.warn (probeWarnMsg url e.msg)]) ++
  [.info ("Processing: \x27" ++ probedTitle url env ++ "\x27"), .progress 10]

/-- Lines 137–159: artifact resolution after a successful downloading call.
`title` is the (possibly updated) video title, `disk1` the workspace contents
after the call, `p?` the reported `filepath`.  Exactly three conditions are
checked: a truthy path was reported, the file exists on disk, and its
lowercased extension is `.mp3`.  On success the bytes are read, the basename
is captured and the file is deleted at once; a read error is an exception
caught by the generic per-item handler. -/
def artifactStep (url title : String) (env : ItemEnv) (disk1 : List String)
    (p? : Option String) : ItemResult :=
  match p? with
  | none =>
    { outcome := .failure url (.artifact ⟨none, none, none⟩)
        (convFailMsg title (diagDetail ⟨none, none, none⟩)),
      disk := disk1,
      events := [.err (convFailMsg title (diagDetail ⟨none, none, none⟩)), .progress 100] }
  | some p =>
    if p == "" then
      { outcome := .failure url (.artifact ⟨some p, none, none⟩)
          (convFailMsg title (diagDetail ⟨some p, none, none⟩)),
        disk := disk1,
        events := [.err (convFailMsg title (diagDetail ⟨some p, none, none⟩)), .progress 100] }
    else
      let ex := decide (p ∈ disk1)
      let ext := mp3Ext p
      if ex && ext then
        let fname := pyBasename p
        let pre : List Event := [.progress 95, .ok (convOkMsg title fname)]
        match env.readBytes p with
        | .ok bs =>
          { outcome := .success title fname bs url,
            disk := disk1.erase p,
            events := pre ++ [.progress 100] }
        | .error m =>
          { outcome := .failure url .unexpected (unexpectedErrMsg (errTitle url title) m),
            disk := disk1,
            events := pre ++ [.err (unexpectedErrMsg (errTitle url title) m), .progress 100] }
      else
        { outcome := .failure url (.artifact ⟨some p, some ex, some ext⟩)
            (convFailMsg title (diagDetail ⟨some p, some ex, some ext⟩)),
          disk := disk1,
          events := [.err (convFailMsg title (diagDetail ⟨some p, some ex, some ext⟩)),
                     .progress 100] }

/-- Lines 113–168: processing of one URL.  The downloading call's exceptions
are caught at the per-item boundary and classified (`DownloadError` versus
any other exception), with `str(e)[:300]` in the displayed reason; a
successful call proceeds to artifact resolution. -/
def processItem (url : String) (env : ItemEnv) (disk : List String) : ItemResult :=
  let pre := itemEvPre url env
  match env.dl with
  | .error (.download m) =>
    { outcome := .failure url .downloadErr (dlErrMsg (errTitle url (probedTitle url env)) m),
      disk := disk,
      events := pre ++ [.err (dlErrMsg (errTitle url (probedTitle url env)) m), .progress 100] }
  | .error (.other m) =>
    { outcome := .failure url .unexpected (unexpectedErrMsg (errTitle url (probedTitle url env)) m),
      disk := disk,
      events := pre ++ [.err (unexpectedErrMsg (errTitle url (probedTitle url env)) m),
                        .progress 100] }
  | .ok pinfo =>
    let r := artifactStep url (dlTitle url env pinfo) env (addFiles disk env.dlFiles)
      pinfo.filepath
    { r with events := pre ++ r.events }

/-! ### The batch orchestrator -/

/-- The per-batch external behaviour: the outcome of
`tempfile.mkdtemp(dir=BASE_TEMP_AUDIO_DIR)` (which may raise inside the
`try`), the outcome of `shutil.rmtree` in the `finally` block, and the
downloader behaviour for the item at each index. -/
structure BatchEnv where
  mkdtemp : Except String String
  rmtreeRes : Except String Unit
  items : Nat → ItemEnv

/-- How far `process_videos` got: the two early-return warnings, the
no-valid-URLs error, the outer `except Exception as batch_e` handler, or a
completed loop with one outcome per validated URL. -/
inductive BatchOutput where
  | emptyInput
  | noUrls
  | noValid
  | critical (msg : String)
  | done (outcomes : List ItemOutcome)
deriving DecidableEq

/-- The observable result of one `process_videos` call: how far it got, the
collected `download_links`, the created workspace directory (if any), whether
the `finally` block managed to remove it, the workspace contents at loop end
(just before cleanup), all display events, and `processing_done`. -/
structure BatchResult where
  output : BatchOutput
  links : List DownloadLink
  wsDir : Option String
  wsRemoved : Bool
  diskAtEnd : List String
  events : List Event
  processingDone : Bool
deriving DecidableEq

/-- Line 60: `[url.strip() for url in urls.splitlines() if url.strip()]`. -/
def rawLines (text : String) : List String :=
  ((pySplitlines text).map pyStrip).filter (fun u => !(u == ""))

/-- Lines 67–72: the lines accepted by `YOUTUBE_URL_PATTERN.match`. -/
def validatedUrls (text : String) : List String :=
  (rawLines text).filter (fun u => YOUTUBE_URL_PATTERN_match u)

/-- Line 72: one warning per rejected line. -/
def skipEvents (text : String) : List Event :=
  (rawLines text).filterMap (fun u =>
    if YOUTUBE_URL_PATTERN_match u then none
    else some (.warn ("Skipped: \x27" ++ u ++
      "\x27 does not appear to be a valid YouTube video URL.")))

/-- Lines 84–168: the sequential loop over the validated URLs, threading the
workspace contents; returns the outcomes in input order, the final workspace
contents and the concatenated events. -/
def runItems (benv : BatchEnv) (urls : List String) (i : Nat) (disk : List String) :
    List ItemOutcome × List String × List Event :=
  match urls with
  | [] => ([], disk, [])
  | u :: rest =>
    let r := processItem u (benv.items i) disk
    let t := runItems benv rest (i + 1) r.disk
    (r.outcome :: t.1, t.2.1, r.events ++ t.2.2)

/-- Line 147–153 and 175–182: the successful outcomes, in order, as
`download_links` entries. -/
def linksOf (outs : List ItemOutcome) : List DownloadLink :=
  outs.filterMap (fun o =>
    match o with
    | .success t f d u => some ⟨t, f, d, u⟩
    | .failure .. => none)

/-- Lines 51–191: `process_videos(urls)`.  Empty input and blank-only input
return early with a warning; if no line validates, an error is shown and no
workspace is created; otherwise `mkdtemp` runs inside the `try` (its failure
is caught by the outer handler, with nothing for the `finally` block to
remove), the loop processes every validated URL, and the `finally` block
always attempts `shutil.rmtree`, downgrading a removal failure to a warning
that leaves the collected results untouched. -/
def runBatch (text : String) (benv : BatchEnv) : BatchResult :=
  if text == "" then
    { output := .emptyInput, links := [], wsDir := none, wsRemoved := false,
      diskAtEnd := [], events := [.warn "Please enter at least one YouTube URL."],
      processingDone := false }
  else if (rawLines text).isEmpty then
    { output := .noUrls, links := [], wsDir := none, wsRemoved := false,
      diskAtEnd := [], events := [.warn "No URLs provided. Please check your input."],
      processingDone := false }
  else if (validatedUrls text).isEmpty then
    { output := .noValid, links := [], wsDir := none, wsRemoved := false,
      diskAtEnd := [],
      events := skipEvents text ++
        [.err "No valid YouTube URLs found among the provided inputs."],
      processingDone := false }
  else
    match benv.mkdtemp with
    | .error e =>
      { output := .critical ("A critical error occurred during batch processing: " ++ e),
        links := [], wsDir := none, wsRemoved := false, diskAtEnd := [],
        events := skipEvents text ++
          [.err ("A critical error occurred during batch processing: " ++ e)],
        processingDone := false }
    | .ok dir =>
      let r := runItems benv (validatedUrls text) 0 []
      let links := linksOf r.1
      let doneEvents : List Event :=
        if links.isEmpty then
          [.err "No videos could be processed successfully from the valid URLs."]
        else
          [.ok "Processing complete! Download links are available above their respective status messages."]
      let removed : Bool :=
        match benv.rmtreeRes with
        | .ok _ => true
        | .error _ => false
      let cleanupEvents : List Event :=
        match benv.rmtreeRes with
        | .ok _ => []
        | .error e => [.warn ("Could not clean up temporary batch directory " ++
            dir ++ ": " ++ e ++ ". Manual cleanup may be required.")]
      { output := .done r.1, links := links, wsDir := some dir,
        wsRemoved := removed, diskAtEnd := r.2.1,
        events := skipEvents text ++ r.2.2 ++ doneEvents ++ cleanupEvents,
        processingDone := true }

/-! ### The progress hook

`progress_hook` (src/app.py lines 26–49) parses the downloader's percent
string inside a `try/except ValueError`.  Python floats are embedded as
exact rationals together with `inf`/`nan` markers; `float()`'s string
grammar (sign, `inf`/`infinity`/`nan`, decimal digits with single
underscores between digits, optional fraction and exponent, surrounding
whitespace) is modelled below on its ASCII fragment. -/

/-- A Python float value as far as the hook needs it: a finite value (as an
exact rational), the two infinities, or `nan`. -/
inductive PyFloat where
  | fin (q : ℚ)
  | inf
  | ninf
  | nan
deriving DecidableEq

/-- Negation (for a leading `-` sign). -/
def PyFloat.neg : PyFloat → PyFloat
  | .fin q => .fin (-q)
  | .inf => .ninf
  | .ninf => .inf
  | .nan => .nan

/-- Continue a digit group after its first digit: further digits, optionally
separated by single underscores (Python 3 numeric literals).  Returns the
digits collected so far (underscores removed) and the unconsumed rest. -/
def digitsGo : List Char → List Char → List Char × List Char
  | '_' :: c :: rest, acc =>
    if c.isDigit then digitsGo rest (c :: acc) else (acc.reverse, '_' :: c :: rest)
  | c :: rest, acc =>
    if c.isDigit then digitsGo rest (c :: acc) else (acc.reverse, c :: rest)
  | [], acc => (acc.reverse, [])

/-- Parse a digit group, which must start with a digit. -/
def parseDigits : List Char → Option (List Char × List Char)
  | c :: rest => if c.isDigit then some (digitsGo rest [c]) else none
  | [] => none

/-- The numeric value of a digit list. -/
def natOfDigits (ds : List Char) : Nat :=
  ds.foldl (fun n c => n * 10 + (c.toNat - 48)) 0

/-- The exact rational `intpart.fracpart`. -/
def qOfParts (ds fs : List Char) : ℚ :=
  mkRat (Int.ofNat (natOfDigits ds * 10 ^ fs.length + natOfDigits fs)) (10 ^ fs.length)

/-- Scale by a power of ten (the exponent part), in exact arithmetic. -/
def applyExp (q : ℚ) (e : Int) : ℚ :=
  match e with
  | .ofNat n => mkRat (q.num * Int.ofNat (10 ^ n)) q.den
  | .negSucc n => mkRat q.num (q.den * 10 ^ (n + 1))

/-- Parse the remainder as an (optional) exponent part `([eE][+-]?digits)`,
requiring the whole remainder to be consumed. -/
def parseExp (l : List Char) : Option Int :=
  match l with
  | [] => some 0
  | e :: rest =>
    if e == 'e' || e == 'E' then
      match rest with
      | '+' :: r2 =>
        (parseDigits r2).bind fun dr =>
          if dr.2.isEmpty then some (Int.ofNat (natOfDigits dr.1)) else none
      | '-' :: r2 =>
        (parseDigits r2).bind fun dr =>
          if dr.2.isEmpty then some (-(Int.ofNat (natOfDigits dr.1))) else none
      | _ =>
        (parseDigits rest).bind fun dr =>
          if dr.2.isEmpty then some (Int.ofNat (natOfDigits dr.1)) else none
    else none

/-- Parse the mantissa: `digits [. [digits]]` or `. digits`; returns its
value and the unconsumed rest. -/
def parseMantissa (l : List Char) : Option (ℚ × List Char) :=
  match parseDigits l with
  | some (ds, rem) =>
    match rem with
    | '.' :: r2 =>
      match parseDigits r2 with
      | some (fs, rem2) => some (qOfParts ds fs, rem2)
      | none => some (qOfParts ds [], r2)
    | _ => some (qOfParts ds [], rem)
  | none =>
    match l with
    | '.' :: r2 =>
      match parseDigits r2 with
      | some (fs, rem2) => some (qOfParts [] fs, rem2)
      | none => none
    | _ => none

/-- Parse the part after an optional sign: `inf`, `infinity` or `nan`
(case-insensitive), or a decimal mantissa with optional exponent. -/
def parseBody (l : List Char) : Option PyFloat :=
  let low := l.map lowerChar
  if low == "inf".toList || low == "infinity".toList then some .inf
  else if low == "nan".toList then some .nan
  else
    match parseMantissa l with
    | some (q, rem) => (parseExp rem).map fun e => .fin (applyExp q e)
    | none => none

/-- Python `float(s)`: `some` value on success, `none` when `float` raises
`ValueError` (ASCII fragment). -/
def pyFloat? (s : String) : Option PyFloat :=
  match pyStripL s.toList with
  | '+' :: rest => parseBody rest
  | '-' :: rest => (parseBody rest).map PyFloat.neg
  | l => parseBody l

/-- Python `int()` on a rational: truncation toward zero. -/
def pyInt (q : ℚ) : Int :=
  Int.tdiv q.num (Int.ofNat q.den)

/-- `q * 0.7` in exact arithmetic (line 41 multiplies the percentage by 0.7). -/
def mulPoint7 (q : ℚ) : ℚ :=
  mkRat (q.num * 7) (q.den * 10)

/-- The progress-callback payload fields the hook reads (`d[\x27status\x27]`
and the `d.get` fields, which may be missing). -/
structure HookPayload where
  status : String
  percent_str : Option String
  total_bytes_str : Option String
  speed_str : Option String
deriving DecidableEq

/-- Line 37: `percent_str.replace(\x27%\x27, \x27\x27)` — every `%` removed. -/
def cleanedPercent (d : HookPayload) : String :=
  String.mk ((d.percent_str.getD "0%").toList.filter (fun c => !(c == '%')))

/-- Lines 26–49: `progress_hook(d, hook_data)`.  In the `downloading` branch
the percent string is parsed inside `try/except ValueError` with fallback 0;
the subsequent `int(percentage * 0.7)` raises (uncaught) on an infinite or
`nan` percentage, which the embedding surfaces as an `.error`.  The other
branches only emit display events. -/
def progress_hook (d : HookPayload) (videoTitle : String) : Except String (List Event) :=
  if d.status == "downloading" then
    let total := d.total_bytes_str.getD "N/A"
    let speed := d.speed_str.getD "N/A"
    let ps := d.percent_str.getD "0%"
    let percentage : PyFloat :=
      match pyFloat? (cleanedPercent d) with
      | some v => v
      | none => .fin 0
    match percentage with
    | .fin q =>
      .ok [.progress (10 + pyInt (mulPoint7 q)),
           .info ("Downloading \x27" ++ videoTitle ++ "\x27: " ++ ps ++ " of " ++
             total ++ " at " ++ speed)]
    | .inf => .error "OverflowError"
    | .ninf => .error "OverflowError"
    | .nan => .error "ValueError"
  else if d.status == "finished" then
    .ok [.progress 85,
         .info ("Download of \x27" ++ videoTitle ++ "\x27 complete. Converting to MP3...")]
  else if d.status == "error" then
    .ok [.warn ("A problem occurred during yt-dlp processing of \x27" ++ videoTitle ++
      "\x27. Waiting for final status...")]
  else
    .ok []

/-! ### Claims C2 and C9: the validator -/

/-- Claim C2: for every input line that, after trimming whitespace, is a
well-formed single-video URL (optional scheme, optional `www` subdomain,
canonical domain with a watch-query path carrying an 11-character identifier
or short-link domain followed directly by the identifier, optionally
followed by extra query/fragment characters from the pattern's trailing
class), the validator accepts it; and every accepted string has exactly that
shape, so any string lacking the 11-character identifier or the host pattern
is rejected. -/
theorem C2_validator_characterization (line : String) :
    YOUTUBE_URL_PATTERN_match (pyStrip line) = true ↔
      WellFormedRef (pyStrip line).toList :=
  matchL_iff_wellFormed (pyStrip line).toList

/-- Concrete instance of claim C2: the canonical watch URL of the spec's
scenario (with surrounding whitespace to be trimmed) is accepted. -/
theorem C2_validator_characterization_witness :
    YOUTUBE_URL_PATTERN_match (pyStrip " https://www.youtube.com/watch?v=dQw4w9WgXcQ ") = true :=
  (C2_validator_characterization " https://www.youtube.com/watch?v=dQw4w9WgXcQ ").mpr
    ⟨"https://".toList, "www.".toList, "youtube.com/watch?v=".toList,
     "dQw4w9WgXcQ".toList, [],
     Or.inr (Or.inr rfl), Or.inr rfl, Or.inl rfl, by decide, by decide, by decide,
     by decide⟩

/-- Claim C9: the trailing group admits the whole class
`[\[\]\(\)\w\s=&%#@!?\+\-_.:;\x27"]` — appending any suffix of class
characters to an accepted string keeps it accepted (in particular every
identifier character is in the class, so identifiers longer than 11
characters still match), while appending any character outside the class,
such as `/`, yields rejection; spaces, quotes and brackets are in the
class. -/
theorem C9_trailing_class_shape (s : String) :
    (∀ t : List Char, YOUTUBE_URL_PATTERN_match s = true → t.all tailChar = true →
        matchL (s.toList ++ t) = true) ∧
    (∀ c : Char, YOUTUBE_URL_PATTERN_match s = true → tailChar c = false →
        matchL (s.toList ++ [c]) = false) ∧
    (∀ c : Char, idChar c = true → tailChar c = true) ∧
    tailChar '/' = false ∧ tailChar ' ' = true ∧ tailChar (Char.ofNat 34) = true ∧
    tailChar '[' = true := by
  refine ⟨?_, ?_, ?_, by decide, by decide, by decide, by decide⟩
  · intro t hm ht
    obtain ⟨sch, www, host, vid, tl, hs, hw, hh, h11, hid, htl, heq⟩ :=
      (matchL_iff_wellFormed s.toList).mp hm
    rw [heq]
    have : sch ++ (www ++ (host ++ (vid ++ tl))) ++ t =
        sch ++ (www ++ (host ++ (vid ++ (tl ++ t)))) := by
      simp [List.append_assoc]
    rw [this, matchL_decomp sch www host hs hw hh]
    exact (afterHost_iff _).mpr ⟨vid, tl ++ t, h11, hid, by simp [List.all_append, htl, ht], rfl⟩
  · intro c hm hc
    obtain ⟨sch, www, host, vid, tl, hs, hw, hh, h11, hid, htl, heq⟩ :=
      (matchL_iff_wellFormed s.toList).mp hm
    rw [heq]
    have : sch ++ (www ++ (host ++ (vid ++ tl))) ++ [c] =
        sch ++ (www ++ (host ++ (vid ++ (tl ++ [c])))) := by
      simp [List.append_assoc]
    rw [this, matchL_decomp sch www host hs hw hh]
    unfold afterHost
    rw [List.drop_left' h11]
    simp [List.all_append, hc]
  · intro c h
    simp only [idChar, Bool.or_eq_true, Bool.and_eq_true, decide_eq_true_eq,
      beq_iff_eq] at h
    simp only [tailChar, Bool.or_eq_true, Bool.and_eq_true, decide_eq_true_eq,
      beq_iff_eq]
    tauto

/-- Concrete instance of claim C9: a 12th identifier character keeps the
short-link acceptance (identifiers longer than 11 characters still match),
while a trailing slash is rejected. -/
theorem C9_trailing_class_shape_witness :
    matchL ("youtu.be/abcdefghijk".toList ++ ['L']) = true ∧
    matchL ("youtu.be/abcdefghijk".toList ++ ['/']) = false :=
  ⟨(C9_trailing_class_shape "youtu.be/abcdefghijk").1 ['L'] (by decide) (by decide),
   (C9_trailing_class_shape "youtu.be/abcdefghijk").2.1 '/' (by decide) (by decide)⟩

/-! ### Claim C10: case-insensitive extension check -/

theorem char_toNat_injective (a b : Char) (h : a.toNat = b.toNat) : a = b := by
  apply Char.eq_of_val_eq
  apply congrArg UInt32.mk
  exact BitVec.eq_of_toNat_eq h

theorem char_toNat_ofNat (n : Nat) (h : n < 55296) : (Char.ofNat n).toNat = n := by
  unfold Char.ofNat
  rw [dif_pos (Or.inl h : Nat.isValidChar n)]
  rfl

/-- Fibers of `lowerChar` over a lowercase letter: the letter itself and its
uppercase counterpart. -/
theorem lowerChar_eq_lower (c t : Char) (h97 : 97 ≤ t.toNat) (h122 : t.toNat ≤ 122) :
    lowerChar c = t ↔ (c = t ∨ c.toNat = t.toNat - 32) := by
  unfold lowerChar
  split
  case isTrue hin =>
    constructor
    · intro h
      have h2 := congrArg Char.toNat h
      rw [char_toNat_ofNat _ (by omega)] at h2
      right; omega
    · rintro (rfl | h)
      · exfalso; omega
      · apply char_toNat_injective
        rw [char_toNat_ofNat _ (by omega)]
        omega
  case isFalse hout =>
    constructor
    · intro h; left; exact h
    · rintro (rfl | h)
      · rfl
      · exfalso; exact hout ⟨by omega, by omega⟩

/-- Fibers of `lowerChar` over a non-letter character: only itself. -/
theorem lowerChar_eq_fixed (c t : Char)
    (ht : t.toNat < 65 ∨ (90 < t.toNat ∧ t.toNat < 97) ∨ 122 < t.toNat) :
    lowerChar c = t ↔ c = t := by
  unfold lowerChar
  split
  case isTrue hin =>
    constructor
    · intro h
      have h2 := congrArg Char.toNat h
      rw [char_toNat_ofNat _ (by omega)] at h2
      exfalso; omega
    · rintro rfl
      exfalso; omega
  case isFalse hout => exact Iff.rfl

theorem startsWith4 (a b c d : Char) (l : List Char) :
    startsWith [a, b, c, d] l = true ↔ ∃ rest, l = a :: b :: c :: d :: rest := by
  rw [show ([a, b, c, d] : List Char) = [a, b, c, d] ++ [] by rfl] at *
  rw [startsWith_iff]
  constructor
  · rintro ⟨r, rfl⟩; exact ⟨r, by simp⟩
  · rintro ⟨r, rfl⟩; exact ⟨r, by simp⟩

theorem startsWith4_map (f : Char → Char) (a b c d : Char) (l : List Char) :
    startsWith [a, b, c, d] (l.map f) = true ↔
      ∃ w x y z rest, l = w :: x :: y :: z :: rest ∧
        f w = a ∧ f x = b ∧ f y = c ∧ f z = d := by
  rw [startsWith4]
  constructor
  · intro h
    obtain ⟨rest, hrest⟩ := h
    cases l with
    | nil => cases hrest
    | cons w l1 =>
      cases l1 with
      | nil => cases hrest
      | cons x l2 =>
        cases l2 with
        | nil => cases hrest
        | cons y l3 =>
          cases l3 with
          | nil => cases hrest
          | cons z l4 =>
            simp only [List.map_cons, List.cons.injEq] at hrest
            exact ⟨w, x, y, z, l4, rfl, hrest.1, hrest.2.1, hrest.2.2.1,
              (hrest.2.2.2.1 : f z = d)⟩
  · rintro ⟨w, x, y, z, rest, rfl, rfl, rfl, rfl, rfl⟩
    exact ⟨rest.map f, by simp⟩

/-- Claim C10: artifact extension validation is case-insensitive — the
condition of line 139 (`final_mp3_path.lower().endswith(".mp3")`, embedded
as `mp3Ext`) holds exactly when the path ends with one of the case variants
`.mp3`, `.mP3`, `.Mp3`, `.MP3`, so uppercase spellings pass the check. -/
theorem C10_mp3_extension_case_insensitive (p : String) :
    mp3Ext p = true ↔
      (pyEndsWith p ".mp3" = true ∨ pyEndsWith p ".mP3" = true ∨
       pyEndsWith p ".Mp3" = true ∨ pyEndsWith p ".MP3" = true) := by
  have hrev : ∀ s : String, (pyLower s).toList.reverse = s.toList.reverse.map lowerChar := by
    intro s
    show (s.toList.map lowerChar).reverse = s.toList.reverse.map lowerChar
    exact (List.map_reverse lowerChar s.toList).symm
  have hm : mp3Ext p = startsWith ['3', 'p', 'm', '.'] (p.toList.reverse.map lowerChar) := by
    show endsWithL ".mp3".toList (pyLower p).toList = _
    unfold endsWithL
    rw [hrev]
    rfl
  have he : ∀ sfx : String, pyEndsWith p sfx = startsWith sfx.toList.reverse p.toList.reverse :=
    fun _ => rfl
  rw [hm, startsWith4_map]
  constructor
  · rintro ⟨w, x, y, z, rest, hsplit, h3, hp, hmm, hdot⟩
    rw [lowerChar_eq_fixed w '3' (by decide)] at h3
    rw [lowerChar_eq_lower x 'p' (by decide) (by decide)] at hp
    rw [lowerChar_eq_lower y 'm' (by decide) (by decide)] at hmm
    rw [lowerChar_eq_fixed z '.' (by decide)] at hdot
    subst h3 hdot
    have hx : x = 'p' ∨ x = 'P' := by
      rcases hp with rfl | hx
      · left; rfl
      · right; exact char_toNat_injective _ _ (by rw [hx]; rfl)
    have hy : y = 'm' ∨ y = 'M' := by
      rcases hmm with rfl | hy
      · left; rfl
      · right; exact char_toNat_injective _ _ (by rw [hy]; rfl)
    rcases hx with rfl | rfl <;> rcases hy with rfl | rfl
    · exact Or.inl (by
        rw [he, (by decide : ".mp3".toList.reverse = ['3', 'p', 'm', '.']), startsWith4]
        exact ⟨rest, hsplit⟩)
    · exact Or.inr (Or.inr (Or.inl (by
        rw [he, (by decide : ".Mp3".toList.reverse = ['3', 'p', 'M', '.']), startsWith4]
        exact ⟨rest, hsplit⟩)))
    · exact Or.inr (Or.inl (by
        rw [he, (by decide : ".mP3".toList.reverse = ['3', 'P', 'm', '.']), startsWith4]
        exact ⟨rest, hsplit⟩))
    · exact Or.inr (Or.inr (Or.inr (by
        rw [he, (by decide : ".MP3".toList.reverse = ['3', 'P', 'M', '.']), startsWith4]
        exact ⟨rest, hsplit⟩)))
  · intro h
    have get : ∀ (sfx : String) (a b c d : Char), sfx.toList.reverse = [a, b, c, d] →
        pyEndsWith p sfx = true →
        lowerChar a = '3' → lowerChar b = 'p' → lowerChar c = 'm' → lowerChar d = '.' →
        ∃ w x y z rest, p.toList.reverse = w :: x :: y :: z :: rest ∧
          lowerChar w = '3' ∧ lowerChar x = 'p' ∧ lowerChar y = 'm' ∧
          lowerChar z = '.' := by
      intro sfx a b c d hsfx hps ha hb hc hd
      rw [he, hsfx, startsWith4] at hps
      obtain ⟨rest, hrest⟩ := hps
      exact ⟨a, b, c, d, rest, hrest, ha, hb, hc, hd⟩
    rcases h with h | h | h | h
    · exact get ".mp3" '3' 'p' 'm' '.' (by decide) h (by decide) (by decide) (by decide)
        (by decide)
    · exact get ".mP3" '3' 'P' 'm' '.' (by decide) h (by decide) (by decide) (by decide)
        (by decide)
    · exact get ".Mp3" '3' 'p' 'M' '.' (by decide) h (by decide) (by decide) (by decide)
        (by decide)
    · exact get ".MP3" '3' 'P' 'M' '.' (by decide) h (by decide) (by decide) (by decide)
        (by decide)

/-- Concrete instance of claim C10: an uppercase `.MP3` path passes the
embedded extension condition. -/
theorem C10_mp3_extension_case_insensitive_witness :
    mp3Ext "SONG.MP3" = true :=
  (C10_mp3_extension_case_insensitive "SONG.MP3").mpr
    (Or.inr (Or.inr (Or.inr (by decide))))

/-! ### Shared batch lemmas -/

theorem runItems_length (benv : BatchEnv) (urls : List String) (i : Nat)
    (disk : List String) : (runItems benv urls i disk).1.length = urls.length := by
  induction urls generalizing i disk with
  | nil => rfl
  | cons u rest ih => simp [runItems, ih]

theorem runItems_items_eq (b1 b2 : BatchEnv) (h : b1.items = b2.items)
    (urls : List String) (i : Nat) (disk : List String) :
    runItems b1 urls i disk = runItems b2 urls i disk := by
  induction urls generalizing i disk with
  | nil => rfl
  | cons u rest ih => simp [runItems, h, ih]

theorem runBatch_done_inv (text : String) (benv : BatchEnv) (outs : List ItemOutcome)
    (h : (runBatch text benv).output = .done outs) :
    outs = (runItems benv (validatedUrls text) 0 []).1 := by
  unfold runBatch at h
  split at h
  · cases h
  · split at h
    · cases h
    · split at h
      · cases h
      · split at h
        · cases h
        · exact (BatchOutput.done.inj h.symm)

theorem runBatch_wsDir_inv (text : String) (benv : BatchEnv) (dir : String)
    (hws : (runBatch text benv).wsDir = some dir) :
    (text == "") = false ∧ (rawLines text).isEmpty = false ∧
      (validatedUrls text).isEmpty = false ∧ benv.mkdtemp = .ok dir := by
  unfold runBatch at hws
  split at hws
  · cases hws
  · split at hws
    · cases hws
    · split at hws
      · cases hws
      · split at hws
        · cases hws
        · injection hws with hdir
          subst hdir
          rename_i h0 h1 h2 hx hy heq
          exact ⟨by simpa using h0, by simpa using h1, by simpa using h2, heq⟩

/-! ### Concrete environments used in witnesses -/

/-- A downloader that fails the downloading call with a `DownloadError`. -/
def envDlBoom : ItemEnv :=
  { probe := .ok ⟨some "T", none⟩, dl := .error (.download "boom"),
    dlFiles := [], readBytes := fun _ => .ok [] }

/-- A downloader whose reported artifact has a `.wav` extension. -/
def envWav (p : String) : ItemEnv :=
  { probe := .ok ⟨some "T", none⟩, dl := .ok ⟨some "T", some p⟩,
    dlFiles := [p], readBytes := fun _ => .ok [] }

/-- A downloader whose metadata probe raises but whose downloading call
succeeds and delivers a valid MP3. -/
def envMp3 : ItemEnv :=
  { probe := .error (.other "probe down"), dl := .ok ⟨some "Real Title", some "w/song.mp3"⟩,
    dlFiles := ["w/song.mp3"], readBytes := fun _ => .ok [7, 7, 7] }

/-- A batch environment with one fixed item behaviour. -/
def benvOf (e : ItemEnv) : BatchEnv :=
  { mkdtemp := .ok "batchdir", rmtreeRes := .ok (), items := fun _ => e }

/-! ### Claim C3: the per-item error boundary -/

/-- Claim C3: every exception of the download/transcode or artifact steps is
caught at the per-item boundary and classified — a `DownloadError` becomes a
download/conversion `failure`, any other exception (including a read error
during artifact handling) becomes an unexpected-error `failure` — with the
exception text truncated to at most 300 characters in the reason; the
processor is total, and the loop still yields one outcome for every URL, so
no exception escapes an item or aborts the remaining items. -/
theorem C3_item_boundary_classifies_and_truncates (url : String) (env : ItemEnv)
    (disk : List String) :
    (∀ m, env.dl = .error (.download m) →
        (processItem url env disk).outcome =
          .failure url .downloadErr (dlErrMsg (errTitle url (probedTitle url env)) m)) ∧
    (∀ m, env.dl = .error (.other m) →
        (processItem url env disk).outcome =
          .failure url .unexpected (unexpectedErrMsg (errTitle url (probedTitle url env)) m)) ∧
    (∀ pinfo p m, env.dl = .ok pinfo → pinfo.filepath = some p → (p == "") = false →
        p ∈ addFiles disk env.dlFiles → mp3Ext p = true → env.readBytes p = .error m →
        (processItem url env disk).outcome =
          .failure url .unexpected (unexpectedErrMsg (errTitle url (dlTitle url env pinfo)) m)) ∧
    (∀ m : String, (pyTake 300 m).length ≤ 300) ∧
    (∀ (benv : BatchEnv) (urls : List String) (i : Nat) (d : List String),
        (runItems benv urls i d).1.length = urls.length) := by
  refine ⟨?_, ?_, ?_, ?_, fun benv urls i d => runItems_length benv urls i d⟩
  · intro m h
    simp [processItem, h]
  · intro m h
    simp [processItem, h]
  · intro pinfo p m hdl hp hne hmem hext hread
    simp [processItem, hdl, artifactStep, hp, hne, hmem, hext, hread]
  · intro m
    show (m.toList.take 300).length ≤ 300
    simp [List.length_take]

/-- Concrete instance of claim C3: a `DownloadError` with message `boom`
becomes that item's download/conversion failure outcome. -/
theorem C3_item_boundary_classifies_and_truncates_witness :
    (processItem "https://youtu.be/abcdefghijk" envDlBoom []).outcome =
      .failure "https://youtu.be/abcdefghijk" .downloadErr
        (dlErrMsg (errTitle "https://youtu.be/abcdefghijk"
          (probedTitle "https://youtu.be/abcdefghijk" envDlBoom)) "boom") :=
  (C3_item_boundary_classifies_and_truncates "https://youtu.be/abcdefghijk" envDlBoom []).1
    "boom" rfl

/-! ### Claim C5: artifact resolution -/

theorem processItem_success_eq (url : String) (env : ItemEnv) (disk : List String)
    (pinfo : Info) (p : String) (bs : List Nat) (hdl : env.dl = .ok pinfo)
    (hp : pinfo.filepath = some p) (hne : (p == "") = false)
    (hmem : p ∈ addFiles disk env.dlFiles) (hext : mp3Ext p = true)
    (hread : env.readBytes p = .ok bs) :
    (processItem url env disk).outcome =
        .success (dlTitle url env pinfo) (pyBasename p) bs url ∧
      (processItem url env disk).disk = (addFiles disk env.dlFiles).erase p := by
  constructor <;> simp [processItem, hdl, artifactStep, hp, hne, hmem, hext, hread]

/-- Claim C5: after the downloading call returns, exactly three conditions
are checked — a (truthy) filepath was reported, that file exists in the
workspace, and its extension is `.mp3`.  When all three hold the file's
bytes are read into the outcome, the basename becomes the delivered
filename, and the file is deleted from the workspace immediately; when a
condition fails the outcome is a failure carrying the diagnostic triple
(reported path, existence, extension match — the latter two `N/A` when no
truthy path was reported), and the loop still yields one outcome per URL so
the remaining items process. -/
theorem C5_artifact_three_conditions (url : String) (env : ItemEnv) (disk : List String)
    (pinfo : Info) (hdl : env.dl = .ok pinfo) :
    (∀ p bs, pinfo.filepath = some p → (p == "") = false →
        p ∈ addFiles disk env.dlFiles → mp3Ext p = true → env.readBytes p = .ok bs →
        (processItem url env disk).outcome =
            .success (dlTitle url env pinfo) (pyBasename p) bs url ∧
          (processItem url env disk).disk = (addFiles disk env.dlFiles).erase p) ∧
    (pinfo.filepath = none →
        (processItem url env disk).outcome =
          .failure url (.artifact ⟨none, none, none⟩)
            (convFailMsg (dlTitle url env pinfo) (diagDetail ⟨none, none, none⟩)) ∧
        (processItem url env disk).disk = addFiles disk env.dlFiles) ∧
    (∀ p, pinfo.filepath = some p → (p == "") = true →
        (processItem url env disk).outcome =
          .failure url (.artifact ⟨some p, none, none⟩)
            (convFailMsg (dlTitle url env pinfo) (diagDetail ⟨some p, none, none⟩))) ∧
    (∀ p, pinfo.filepath = some p → (p == "") = false →
        (decide (p ∈ addFiles disk env.dlFiles) && mp3Ext p) = false →
        (processItem url env disk).outcome =
          .failure url
            (.artifact ⟨some p, some (decide (p ∈ addFiles disk env.dlFiles)),
              some (mp3Ext p)⟩)
            (convFailMsg (dlTitle url env pinfo)
              (diagDetail ⟨some p, some (decide (p ∈ addFiles disk env.dlFiles)),
                some (mp3Ext p)⟩)) ∧
        (processItem url env disk).disk = addFiles disk env.dlFiles) ∧
    (∀ (benv : BatchEnv) (urls : List String) (i : Nat) (d : List String),
        (runItems benv urls i d).1.length = urls.length) := by
  refine ⟨?_, ?_, ?_, ?_, fun benv urls i d => runItems_length benv urls i d⟩
  · intro p bs hp hne hmem hext hread
    exact processItem_success_eq url env disk pinfo p bs hdl hp hne hmem hext hread
  · intro hp
    constructor <;> simp [processItem, hdl, artifactStep, hp]
  · intro p hp he
    simp [processItem, hdl, artifactStep, hp, he]
  · intro p hp hne hcond
    constructor <;> simp [processItem, hdl, artifactStep, hp, hne, hcond]

/-- Concrete instance of claim C5 (the spec's scenario): a reported filepath
ending in `.wav` fails the extension condition and the item's outcome is a
failure whose diagnostic triple records the mismatch. -/
theorem C5_artifact_three_conditions_witness :
    (processItem "https://youtu.be/abcdefghijk" (envWav "w/a.wav") []).outcome =
      .failure "https://youtu.be/abcdefghijk"
        (.artifact ⟨some "w/a.wav", some true, some false⟩)
        (convFailMsg (dlTitle "https://youtu.be/abcdefghijk" (envWav "w/a.wav")
            ⟨some "T", some "w/a.wav"⟩)
          (diagDetail ⟨some "w/a.wav", some true, some false⟩)) := by
  have h := (C5_artifact_three_conditions "https://youtu.be/abcdefghijk"
    (envWav "w/a.wav") [] ⟨some "T", some "w/a.wav"⟩ rfl).2.2.2.1 "w/a.wav" rfl
    (by decide) (by decide)
  have hd : decide ("w/a.wav" ∈ addFiles [] (envWav "w/a.wav").dlFiles) = true := by decide
  have hext : mp3Ext "w/a.wav" = false := by decide
  rw [hd, hext] at h
  exact h.1

/-! ### Claim C7: probe failure is non-fatal -/

/-- Claim C7: when the metadata-only probe raises, the item is not aborted —
the failure is reported as a warning event, the placeholder title derived
from the URL's identifier substring is used for the status display, and
processing proceeds to the downloading call; if that call succeeds (and the
artifact conditions hold), the item yields a `success` whose title is the
one recovered from the second call rather than the placeholder. -/
theorem C7_probe_failure_nonfatal (url : String) (env : ItemEnv) (disk : List String)
    (e : PyExc) (hprobe : env.probe = .error e) :
    Event.warn (probeWarnMsg url e.msg) ∈ (processItem url env disk).events ∧
    Event.info ("Processing: \x27" ++ fallbackTitle url ++ "\x27") ∈
      (processItem url env disk).events ∧
    (∀ pinfo t p bs, env.dl = .ok pinfo → pinfo.title = some t →
        pinfo.filepath = some p → (p == "") = false →
        p ∈ addFiles disk env.dlFiles → mp3Ext p = true → env.readBytes p = .ok bs →
        (processItem url env disk).outcome = .success t (pyBasename p) bs url) := by
  have hpre : ∀ ev ∈ itemEvPre url env, ev ∈ (processItem url env disk).events := by
    intro ev hev
    unfold processItem
    match hdl : env.dl with
    | .error (.download m) => simp [hdl]; exact Or.inl hev
    | .error (.other m) => simp [hdl]; exact Or.inl hev
    | .ok pinfo => simp [hdl]; exact Or.inl hev
  refine ⟨?_, ?_, ?_⟩
  · exact hpre _ (by simp [itemEvPre, hprobe])
  · have : probedTitle url env = fallbackTitle url := by simp [probedTitle, hprobe]
    exact hpre _ (by simp [itemEvPre, this])
  · intro pinfo t p bs hdl ht hp hne hmem hext hread
    have htitle : dlTitle url env pinfo = t := by simp [dlTitle, ht]
    have h := (processItem_success_eq url env disk pinfo p bs hdl hp hne hmem
      hext hread).1
    rwa [htitle] at h

/-- Concrete instance of claim C7: the probe raises, the downloading call
succeeds, and the item succeeds with the title of the second call. -/
theorem C7_probe_failure_nonfatal_witness :
    Event.warn (probeWarnMsg "https://youtu.be/abcdefghijk" "probe down") ∈
      (processItem "https://youtu.be/abcdefghijk" envMp3 []).events ∧
    (processItem "https://youtu.be/abcdefghijk" envMp3 []).outcome =
      .success "Real Title" "song.mp3" [7, 7, 7] "https://youtu.be/abcdefghijk" := by
  have h := C7_probe_failure_nonfatal "https://youtu.be/abcdefghijk" envMp3 []
    (.other "probe down") rfl
  exact ⟨h.1, by
    have := h.2.2 ⟨some "Real Title", some "w/song.mp3"⟩ "Real Title" "w/song.mp3"
      [7, 7, 7] rfl rfl rfl (by decide) (by decide) (by decide) rfl
    rwa [(by decide : pyBasename "w/song.mp3" = "song.mp3")] at this⟩

theorem runBatch_shape (text : String) (benv : BatchEnv) (dir : String)
    (h0 : (text == "") = false) (h1 : (rawLines text).isEmpty = false)
    (h2 : (validatedUrls text).isEmpty = false) (h3 : benv.mkdtemp = .ok dir) :
    runBatch text benv =
      { output := .done (runItems benv (validatedUrls text) 0 []).1,
        links := linksOf (runItems benv (validatedUrls text) 0 []).1,
        wsDir := some dir,
        wsRemoved := (match benv.rmtreeRes with | .ok _ => true | .error _ => false),
        diskAtEnd := (runItems benv (validatedUrls text) 0 []).2.1,
        events := skipEvents text ++ (runItems benv (validatedUrls text) 0 []).2.2 ++
          (if (linksOf (runItems benv (validatedUrls text) 0 []).1).isEmpty then
            [Event.err "No videos could be processed successfully from the valid URLs."]
          else
            [Event.ok "Processing complete! Download links are available above their respective status messages."]) ++
          (match benv.rmtreeRes with
           | .ok _ => []
           | .error e => [Event.warn ("Could not clean up temporary batch directory " ++
               dir ++ ": " ++ e ++ ". Manual cleanup may be required.")]),
        processingDone := true } := by
  unfold runBatch
  simp [h0, h1, h2, h3]

/-! ### Claim C1: one outcome per validated URL -/

/-- Claim C1: whenever the batch run completes its processing loop, the
resulting list of outcomes has exactly one entry per URL accepted by the
validator — never more, never fewer — regardless of how the individual items
succeed or fail. -/
theorem C1_one_outcome_per_validated_url (text : String) (benv : BatchEnv)
    (outs : List ItemOutcome) (h : (runBatch text benv).output = .done outs) :
    outs.length = (validatedUrls text).length := by
  rw [runBatch_done_inv text benv outs h]
  exact runItems_length benv (validatedUrls text) 0 []

/-- Concrete instance of claim C1 (the spec's scenario shape): one valid URL
plus one rejected line yields exactly one outcome, here a failure. -/
theorem C1_one_outcome_per_validated_url_witness :
    ([ItemOutcome.failure "https://youtu.be/abcdefghijk" .downloadErr
        (dlErrMsg (errTitle "https://youtu.be/abcdefghijk"
          (probedTitle "https://youtu.be/abcdefghijk" envDlBoom)) "boom")].length) =
      (validatedUrls "https://youtu.be/abcdefghijk\nnot a url").length :=
  C1_one_outcome_per_validated_url "https://youtu.be/abcdefghijk\nnot a url"
    (benvOf envDlBoom) _ (by decide)

/-! ### Claim C4: guaranteed workspace release -/

/-- Claim C4: every run that reaches workspace creation attempts the
recursive removal when the run ends (the `finally` discipline): when
`shutil.rmtree` succeeds the workspace is removed; when it fails the failure
is downgraded to a non-fatal warning — the run's output and the collected
download links are exactly those of a run whose cleanup succeeds, so a
removal failure is never propagated as a batch failure and never discards
already-collected results. -/
theorem C4_workspace_released_and_cleanup_nonfatal (text : String) (benv : BatchEnv)
    (dir : String) (hws : (runBatch text benv).wsDir = some dir) :
    (∃ outs, (runBatch text benv).output = .done outs) ∧
    (benv.rmtreeRes = .ok () → (runBatch text benv).wsRemoved = true) ∧
    (∀ e, benv.rmtreeRes = .error e →
        (runBatch text benv).wsRemoved = false ∧
        Event.warn ("Could not clean up temporary batch directory " ++ dir ++ ": " ++ e ++
          ". Manual cleanup may be required.") ∈ (runBatch text benv).events ∧
        (runBatch text benv).output =
          (runBatch text { benv with rmtreeRes := .ok () }).output ∧
        (runBatch text benv).links =
          (runBatch text { benv with rmtreeRes := .ok () }).links) := by
  obtain ⟨h0, h1, h2, h3⟩ := runBatch_wsDir_inv text benv dir hws
  have hs := runBatch_shape text benv dir h0 h1 h2 h3
  have hs' := runBatch_shape text { benv with rmtreeRes := .ok () } dir h0 h1 h2 h3
  have hitems : runItems { benv with rmtreeRes := Except.ok () } (validatedUrls text) 0 [] =
      runItems benv (validatedUrls text) 0 [] :=
    runItems_items_eq { benv with rmtreeRes := Except.ok () } benv rfl _ _ _
  refine ⟨⟨(runItems benv (validatedUrls text) 0 []).1, by rw [hs]⟩, ?_, ?_⟩
  · intro hok
    rw [hs]
    simp [hok]
  · intro e he
    refine ⟨by rw [hs]; simp [he], by rw [hs]; simp [he], ?_, ?_⟩
    · rw [hs, hs']
      simp [hitems]
    · rw [hs, hs']
      simp [hitems]

/-- Concrete instance of claim C4: with a failing `rmtree`, the workspace
stays on disk, the warning is emitted, and the output equals that of the
same batch with a succeeding cleanup. -/
theorem C4_workspace_released_and_cleanup_nonfatal_witness :
    (runBatch "https://youtu.be/abcdefghijk" { benvOf envDlBoom with rmtreeRes := .error "EACCES" }).wsRemoved = false ∧
    (runBatch "https://youtu.be/abcdefghijk" { benvOf envDlBoom with rmtreeRes := .error "EACCES" }).output =
      (runBatch "https://youtu.be/abcdefghijk"
        { { benvOf envDlBoom with rmtreeRes := .error "EACCES" } with rmtreeRes := .ok () }).output := by
  have h := (C4_workspace_released_and_cleanup_nonfatal "https://youtu.be/abcdefghijk"
    { benvOf envDlBoom with rmtreeRes := .error "EACCES" } "batchdir" (by decide)).2.2
    "EACCES" rfl
  exact ⟨h.1, h.2.2.1⟩

/-! ### Claim C8: malformed percent strings -/

/-- Claim C8: in the `downloading` branch of the progress hook a malformed
or missing percentage string never raises — when `float()` fails on the
cleaned percent string the percentage is treated as 0 for that tick, so the
hook returns normally with the tick progress `10 + int(0 * 0.7) = 10`; a
missing `_percent_str` defaults to `"0%"` with the same result. -/
theorem C8_malformed_percent_defaults_to_zero (d : HookPayload) (t : String)
    (hs : d.status = "downloading") :
    (pyFloat? (cleanedPercent d) = none →
        ∃ msg, progress_hook d t = .ok [.progress 10, .info msg]) ∧
    (d.percent_str = none →
        ∃ msg, progress_hook d t = .ok [.progress 10, .info msg]) := by
  have hzero : (10 : Int) + pyInt (mulPoint7 0) = 10 := by decide
  have core : ∀ hp : pyFloat? (cleanedPercent d) = some (.fin 0) ∨
      pyFloat? (cleanedPercent d) = none,
      ∃ msg, progress_hook d t = .ok [.progress 10, .info msg] := by
    intro hp
    have hmsg : progress_hook d t =
        .ok [.progress (10 + pyInt (mulPoint7 0)),
             .info ("Downloading '" ++ t ++ "': " ++ (d.percent_str.getD "0%") ++
               " of " ++ (d.total_bytes_str.getD "N/A") ++ " at " ++
               (d.speed_str.getD "N/A"))] := by
      rcases hp with hp | hp <;>
        simp only [progress_hook, hs, beq_self_eq_true, if_true, hp]
    rw [hzero] at hmsg
    exact ⟨_, hmsg⟩
  constructor
  · intro hbad
    exact core (Or.inr hbad)
  · intro hnone
    have hclean : cleanedPercent d = "0" := by
      simp [cleanedPercent, hnone]
    exact core (Or.inl (by rw [hclean]; decide))

/-- Concrete instance of claim C8: the percent string `N/A%` (cleaned to
`N/A`, which `float()` rejects) yields a normal tick at progress 10. -/
theorem C8_malformed_percent_defaults_to_zero_witness :
    ∃ msg, progress_hook
      { status := "downloading", percent_str := some "N/A%",
        total_bytes_str := none, speed_str := none } "T" =
      .ok [.progress 10, .info msg] :=
  (C8_malformed_percent_defaults_to_zero
    { status := "downloading", percent_str := some "N/A%",
      total_bytes_str := none, speed_str := none } "T" rfl).1 (by decide)

/-! ### Claim C6: artifact residency

The claim asserts that a prior item's artifact is deleted before the next
item starts *whether the item succeeded or its artifact validation failed*.
The code only deletes in the success branch (line 154); the
validation-failure branch (lines 156–159) leaves the produced file in the
workspace, so two artifacts can be resident at once.  The counterexample
below exhibits this; the amended statement proves the deletion guarantee
that does hold: a successfully delivered artifact is deleted immediately,
before the next item starts. -/

/-- A two-URL batch whose items both produce `.wav` artifacts. -/
def cexText : String :=
  "https://youtu.be/abcdefghijk\nhttps://youtu.be/ABCDEFGHIJK"

/-- Batch environment for the two-`.wav` batch. -/
def cexBenv : BatchEnv :=
  { mkdtemp := .ok "batchdir", rmtreeRes := .ok (),
    items := fun i => if i == 0 then envWav "w/a.wav" else envWav "w/b.wav" }

/-- Counterexample to claim C6: after the first item's artifact validation
fails on the `.wav` extension, its produced file is still in the workspace
when the next item starts, and at the end of the loop two produced files are
resident at once. -/
theorem C6_counterexample_two_artifacts_resident :
    (processItem "https://youtu.be/abcdefghijk" (envWav "w/a.wav") []).disk =
      ["w/a.wav"] ∧
    (runBatch cexText cexBenv).diskAtEnd = ["w/a.wav", "w/b.wav"] :=
  ⟨by decide, by decide⟩

theorem artifactStep_success_disk (url title : String) (env : ItemEnv)
    (disk1 : List String) (p : String) (hnd : disk1.Nodup) (t f : String)
    (bs : List Nat) (u : String)
    (hout : (artifactStep url title env disk1 (some p)).outcome = .success t f bs u) :
    p ∉ (artifactStep url title env disk1 (some p)).disk := by
  by_cases he : (p == "") = true
  · simp [artifactStep, he] at hout
  · have he' : (p == "") = false := by simpa using he
    by_cases hc : (decide (p ∈ disk1) && mp3Ext p) = true
    · cases hrb : env.readBytes p with
      | ok bs' =>
        simp only [artifactStep, he', Bool.false_eq_true, if_false, hc, if_true, hrb]
        intro hmem
        exact ((List.Nodup.mem_erase_iff hnd).mp hmem).1 rfl
      | error m => simp [artifactStep, he', hc, hrb] at hout
    · have hc' : (decide (p ∈ disk1) && mp3Ext p) = false := by simpa using hc
      simp [artifactStep, he', hc'] at hout

/-- Claim C6, amended: a *successfully delivered* artifact is deleted from
the workspace immediately, before the next item starts — whenever an item's
outcome is a success, its reported artifact path is no longer among the
workspace contents the next item receives; an artifact that fails validation
may instead remain resident until the batch-end workspace removal. -/
theorem C6_amended_success_artifact_deleted (url : String) (env : ItemEnv)
    (disk : List String) (pinfo : Info) (p t f : String) (bs : List Nat) (u : String)
    (hnd : (addFiles disk env.dlFiles).Nodup) (hdl : env.dl = .ok pinfo)
    (hp : pinfo.filepath = some p)
    (hout : (processItem url env disk).outcome = .success t f bs u) :
    p ∉ (processItem url env disk).disk := by
  have hps : (processItem url env disk).outcome =
      (artifactStep url (dlTitle url env pinfo) env (addFiles disk env.dlFiles)
        pinfo.filepath).outcome := by
    simp [processItem, hdl]
  have hpd : (processItem url env disk).disk =
      (artifactStep url (dlTitle url env pinfo) env (addFiles disk env.dlFiles)
        pinfo.filepath).disk := by
    simp [processItem, hdl]
  rw [hps, hp] at hout
  rw [hpd, hp]
  exact artifactStep_success_disk _ _ _ _ _ hnd _ _ _ _ hout

/-- Concrete instance of the amended claim C6: the delivered `w/song.mp3` is
no longer in the workspace after its item succeeds. -/
theorem C6_amended_success_artifact_deleted_witness :
    "w/song.mp3" ∉ (processItem "https://youtu.be/abcdefghijk" envMp3 []).disk :=
  C6_amended_success_artifact_deleted "https://youtu.be/abcdefghijk" envMp3 []
    ⟨some "Real Title", some "w/song.mp3"⟩ "w/song.mp3" "Real Title" "song.mp3"
    [7, 7, 7] "https://youtu.be/abcdefghijk" (by decide) rfl rfl (by decide)
